import Mathlib

/-!
Verification of the fctest repository: a single-page file-explorer UI
(src/tools.py, an HTML document with embedded JavaScript) plus a
spec-described HTTP file server whose Python sources are not part of the
repository snapshot.  JavaScript strings are modelled as Lean `String`
(lists of characters); browser built-ins (fetch, DOMParser) appear as
explicit oracles.
-/

namespace Explorer

/-- ASCII lower-casing of one character, modelling the effect of
JavaScript `String.prototype.toLowerCase` on ASCII data. -/
def charLower (c : Char) : Char :=
  if 'A' ≤ c ∧ c ≤ 'Z' then Char.ofNat (c.toNat + 32) else c

/-- Lower-case every character of a character list. -/
def lowerL (l : List Char) : List Char := l.map charLower

/-- Lower-case a string (model of JavaScript `toLowerCase`). -/
def toLowerStr (s : String) : String := String.mk (lowerL s.data)

/-- Case-sensitive lexicographic comparison on character lists:
`lexLe a b` holds when `a` is lexicographically at most `b`. -/
def lexLe : List Char → List Char → Bool
  | [], _ => true
  | _ :: _, [] => false
  | a :: as, b :: bs => if a < b then true else if b < a then false else lexLe as bs

/-- One entry of a directory listing as the browser script handles it:
the fields constructed in `parseDirectoryListing` and consumed by
`displayFiles` (src/tools.py).  `type` is the literal JavaScript string
tag, `"directory"` or `"file"` for entries the script itself builds. -/
structure FileEntry where
  name : String
  path : String
  type : String
  size : Option Nat
  modified : Option String
deriving DecidableEq

/-- Model of `a.name.localeCompare(b.name)` as used by the sort in
`displayFiles` (src/tools.py line 391).  Host-locale collation is
implementation-defined; at primary strength it ignores letter case, so it
is modelled as the case-insensitive lexicographic comparison of the two
names, returning the usual negative/zero/positive code. -/
def localeCompare (a b : String) : Int :=
  if lexLe (lowerL a.data) (lowerL b.data) then
    (if lexLe (lowerL b.data) (lowerL a.data) then 0 else -1)
  else 1

/-- The comparator passed to `Array.prototype.sort` in `displayFiles`
(src/tools.py lines 388-392): directories strictly first, otherwise
compare names. -/
def sortCompare (a b : FileEntry) : Int :=
  if a.type = "directory" ∧ b.type ≠ "directory" then -1
  else if a.type ≠ "directory" ∧ b.type = "directory" then 1
  else localeCompare a.name b.name

/-- The non-strict order induced by `sortCompare`: `Array.prototype.sort`
places `a` no later than `b` exactly when the comparator is ≤ 0. -/
def sortLe (a b : FileEntry) : Bool := decide (sortCompare a b ≤ 0)

/-- The order in which `displayFiles` (src/tools.py lines 387-394) renders
entries: the input list sorted by the comparator.  `Array.prototype.sort`
is required to be stable and to sort according to the comparator, which a
stable merge sort realises. -/
def displayOrder (files : List FileEntry) : List FileEntry :=
  files.mergeSort sortLe

/-- Model of JavaScript `String.prototype.trim`: drop whitespace from both
ends of the character list. -/
def trimL (l : List Char) : List Char :=
  ((l.dropWhile Char.isWhitespace).reverse.dropWhile Char.isWhitespace).reverse

/-- Model of JavaScript `String.prototype.endsWith` on character lists. -/
def endsWithL (suffix l : List Char) : Bool :=
  suffix.reverse.isPrefixOf l.reverse

/-- Model of JavaScript `String.prototype.replace` with a plain-string
pattern: replace only the first occurrence of `pat` by `rep`. -/
def replaceFirstL (pat rep : List Char) : List Char → List Char
  | [] => if pat.isEmpty then rep else []
  | c :: rest =>
    if pat.isPrefixOf (c :: rest) then rep ++ (c :: rest).drop pat.length
    else c :: replaceFirstL pat rep rest

/-- Model of JavaScript `String.prototype.includes` on character lists. -/
def containsL (sub : List Char) : List Char → Bool
  | [] => sub.isEmpty
  | c :: rest => sub.isPrefixOf (c :: rest) || containsL sub rest

/-- Split a character list at every occurrence of `sep`, modelling
JavaScript `String.prototype.split` with a one-character separator. -/
def splitOnChar (sep : Char) : List Char → List (List Char)
  | [] => [[]]
  | c :: rest =>
    if c = sep then [] :: splitOnChar sep rest
    else match splitOnChar sep rest with
      | [] => [[c]]
      | s :: ss => (c :: s) :: ss

/-- Serialization of one character of a text node, as produced by setting
`div.textContent` and reading back `div.innerHTML` in `escapeHtml`
(src/tools.py lines 534-538): the HTML fragment-serialization algorithm
escapes ampersand, the no-break space, less-than and greater-than in text
data; every other character is emitted unchanged. -/
def escapeChar (c : Char) : List Char :=
  if c = '&' then ['&', 'a', 'm', 'p', ';']
  else if c = '<' then ['&', 'l', 't', ';']
  else if c = '>' then ['&', 'g', 't', ';']
  else if c = '\u00A0' then ['&', 'n', 'b', 's', 'p', ';']
  else [c]

/-- HTML-escape a character list by escaping each character in turn. -/
def escapeHtmlL : List Char → List Char
  | [] => []
  | c :: rest => escapeChar c ++ escapeHtmlL rest

/-- Model of the page script function `escapeHtml` (src/tools.py lines
534-538). -/
def escapeHtml (s : String) : String := String.mk (escapeHtmlL s.data)

/-- Checks that every ampersand in the list begins one of the four entity
sequences the serializer can emit, i.e. that no raw ampersand remains. -/
def entityOk : List Char → Bool
  | [] => true
  | c :: rest =>
    if c = '&' then
      match rest with
      | 'a' :: 'm' :: 'p' :: ';' :: r => entityOk r
      | 'l' :: 't' :: ';' :: r => entityOk r
      | 'g' :: 't' :: ';' :: r => entityOk r
      | 'n' :: 'b' :: 's' :: 'p' :: ';' :: r => entityOk r
      | _ => false
    else entityOk rest

/-- Model of `getFileIcon` (src/tools.py lines 426-434): the icon is chosen
from the lower-cased last dot-separated component of the file name. -/
def getFileIcon (filename : String) : String :=
  let ext := toLowerStr (String.mk ((splitOnChar '.' filename.data).getLastD []))
  if ext = "py" then "🐍" else if ext = "js" then "📜"
  else if ext = "html" then "🌐" else if ext = "css" then "🎨"
  else if ext = "json" then "📋" else if ext = "txt" then "📄"
  else if ext = "md" then "📝" else if ext = "pdf" then "📕"
  else if ext = "zip" then "📦" else if ext = "jpg" then "🖼️"
  else if ext = "png" then "🖼️" else if ext = "gif" then "🖼️"
  else if ext = "mp4" then "🎬" else if ext = "mp3" then "🎵"
  else "📄"

/-- A path interpolated into a single-quoted JavaScript call inside the
item template of `displayFiles`. -/
def qpath (p : String) : String := "\x27" ++ p ++ "\x27"

/-- The `onclick` attribute of the file-info block in the item template of
`displayFiles` (src/tools.py line 404). -/
def infoOnclick (f : FileEntry) : String :=
  if f.type = "directory" then "navigateTo(" ++ qpath f.path ++ ")"
  else "openFile(" ++ qpath f.path ++ ")"

/-- The action-button fragment of the item template of `displayFiles`
(src/tools.py lines 413-417). -/
def actionsHtml (f : FileEntry) : String :=
  if f.type = "directory" then
    "<button class=\"btn btn-primary btn-small\" onclick=\"navigateTo(" ++
      qpath f.path ++ ")\">Open</button>"
  else
    "<button class=\"btn btn-primary btn-small\" onclick=\"openFile(" ++
      qpath f.path ++ ")\">Open</button> " ++
    "<button class=\"btn btn-secondary btn-small\" onclick=\"downloadFile(" ++
      qpath f.path ++ ")\">Download</button>"

/-- The size text of the item template: `file.size ? formatSize(file.size)
: "-"` (src/tools.py line 399).  JavaScript truthiness makes a missing or
zero size render as a dash; `formatSize` performs floating-point
formatting and its output is taken as the parameter `formattedSize`. -/
def sizeDisplay (f : FileEntry) (formattedSize : String) : String :=
  match f.size with
  | none => "-"
  | some 0 => "-"
  | some _ => formattedSize

/-- The modified text of the item template: `file.modified || "-"`
(src/tools.py line 400); an absent or empty string renders as a dash. -/
def modifiedDisplay (f : FileEntry) : String :=
  match f.modified with
  | none => "-"
  | some m => if m = "" then "-" else m

/-- The markup `displayFiles` assigns to one list item's `innerHTML`
(src/tools.py lines 402-419), with runs of inter-tag template whitespace
compressed to a single space. -/
def itemInnerHTML (f : FileEntry) (formattedSize : String) : String :=
  " <div class=\"file-icon\">" ++
    (if f.type = "directory" then "📁" else getFileIcon f.name) ++ "</div> " ++
  "<div class=\"file-info\" onclick=\"" ++ infoOnclick f ++ "\"> " ++
  "<div class=\"file-name\">" ++ escapeHtml f.name ++ "</div> " ++
  "<div class=\"file-details\"> <span>Type: " ++ f.type ++ "</span> " ++
  "<span>Size: " ++ sizeDisplay f formattedSize ++ "</span> " ++
  "<span>Modified: " ++ modifiedDisplay f ++ "</span> </div> </div> " ++
  "<div class=\"file-actions\"> " ++ actionsHtml f ++ " </div>"

/-- One anchor element of the fetched page as the fallback parser sees it
after `DOMParser` and `querySelectorAll` (src/tools.py lines 333-340):
the value of `getAttribute("href")` (absent when the attribute is
missing) and the element's text content. -/
structure Anchor where
  href : Option String
  text : String
deriving DecidableEq

/-- The entry (if any) that one anchor contributes in
`parseDirectoryListing` (src/tools.py lines 338-361).  `href && text`
requires both strings nonempty; links whose trimmed text starts with
"Parent Directory" or ".." are skipped; the full path is joined with
forward slashes and the first "//" is collapsed; an entry is a directory
when its href or its trimmed text ends with "/". -/
def linkEntry (path : String) (link : Anchor) : Option FileEntry :=
  match link.href with
  | none => none
  | some href =>
    let text := String.mk (trimL link.text.data)
    if href ≠ "" ∧ text ≠ "" ∧
        ¬ "Parent Directory".data.isPrefixOf text.data ∧
        ¬ "..".data.isPrefixOf text.data then
      let fullPath0 :=
        if path = "/" then
          (if "/".data.isPrefixOf href.data then href else "/" ++ href)
        else
          (if endsWithL "/".data path.data then path ++ href else path ++ "/" ++ href)
      let fullPath := String.mk (replaceFirstL "//".data "/".data fullPath0.data)
      let isDirectory := endsWithL "/".data href.data ∨ endsWithL "/".data text.data
      some { name := String.mk (replaceFirstL "/".data [] text.data)
             path := fullPath
             type := if isDirectory then "directory" else "file"
             size := none
             modified := none }
    else none

/-- Model of `parseDirectoryListing` (src/tools.py lines 332-367): the
entries contributed by the page's anchors, in document order. -/
def parseDirectoryListing (links : List Anchor) (path : String) : List FileEntry :=
  links.filterMap (linkEntry path)

/-- The JSON body of a listing response as `loadDirectory` reads it
(src/tools.py lines 315-316): only the `files` field is consumed, and
`data.files || []` tolerates its absence. -/
structure ListJson where
  files : Option (List FileEntry)
  path : Option String

/-- Outcome of the listing-API fetch in `loadDirectory` (src/tools.py line
309): either the fetch itself rejects with an error message, or a response
arrives with a status code and a body whose JSON parse may fail. -/
inductive FetchApi where
  | fetchError (msg : String)
  | response (status : Nat) (body : Except String ListJson)

/-- The browser-supplied behaviour `loadDirectory` interacts with: the
listing-API fetch, and the fallback page fetch whose text is parsed into
anchors (fetch + text + DOMParser + querySelectorAll combined). -/
structure BrowserEnv where
  api : FetchApi
  page : Except String (List Anchor)

/-- What `loadDirectory` leaves on screen: the file list displayed from
the API data, the file list displayed by the fallback parser, or the
error box. -/
inductive Outcome where
  | displayed (files : List FileEntry)
  | displayedFallback (files : List FileEntry)
  | errorShown (msg : String)
deriving DecidableEq

/-- The `Response.ok` flag of the Fetch standard: status in 200..299. -/
def respOk (status : Nat) : Bool := 200 ≤ status && status ≤ 299

/-- Hexadecimal digit characters, upper-case, as percent-encoding uses. -/
def hexDigitChar (n : Nat) : Char :=
  if n < 10 then Char.ofNat (48 + n) else Char.ofNat (55 + n)

/-- Percent-encode one byte. -/
def pctByte (b : Nat) : List Char := ['%', hexDigitChar (b / 16), hexDigitChar (b % 16)]

/-- The characters `encodeURIComponent` leaves unescaped: ASCII letters,
digits, and - _ . ! ~ * ( ) together with the apostrophe (code 39). -/
def isUnreservedURI (c : Char) : Bool :=
  ('A' ≤ c && c ≤ 'Z') || ('a' ≤ c && c ≤ 'z') || ('0' ≤ c && c ≤ '9') ||
  c = '-' || c = '_' || c = '.' || c = '!' || c = '~' || c = '*' ||
  c.toNat = 39 || c = '(' || c = ')'

/-- The UTF-8 bytes of one character. -/
def utf8Bytes (c : Char) : List Nat :=
  let n := c.toNat
  if n < 128 then [n]
  else if n < 2048 then [192 + n / 64, 128 + n % 64]
  else if n < 65536 then [224 + n / 4096, 128 + (n / 64) % 64, 128 + n % 64]
  else [240 + n / 262144, 128 + (n / 4096) % 64, 128 + (n / 64) % 64, 128 + n % 64]

/-- Model of JavaScript `encodeURIComponent`: unreserved characters pass
through, everything else is percent-encoded byte by byte in UTF-8. -/
def encodeURIComponent (s : String) : String :=
  String.mk ((s.data.map (fun c =>
    if isUnreservedURI c then [c] else ((utf8Bytes c).map pctByte).flatten)).flatten)

/-- The URL `loadDirectory` requests from the listing API (src/tools.py
line 309). -/
def apiListUrl (path : String) : String :=
  "/api/list?path=" ++ encodeURIComponent path

/-- The catch branch of `loadDirectory` (src/tools.py lines 319-328):
fetch the directory path itself (the guard `path === "/" ? "/" : path` is
the identity) and parse the returned HTML; if that fetch also fails, show
an error built from the original error's message. -/
def fallbackLoad (env : BrowserEnv) (path : String) (errMsg : String) : Outcome :=
  match env.page with
  | .ok anchors => .displayedFallback (parseDirectoryListing anchors path)
  | .error _ => .errorShown ("Failed to load directory: " ++ errMsg)

/-- Model of `loadDirectory` (src/tools.py lines 298-329): the URL it
requests from the listing API, and what ends up on screen.  A non-ok
response throws `HTTP error! status: <status>`, a rejected fetch or JSON
parse throws its own message, and every throw lands in the fallback. -/
def loadDirectory (env : BrowserEnv) (path : String) : String × Outcome :=
  (apiListUrl path,
    match env.api with
    | .fetchError msg => fallbackLoad env path msg
    | .response status body =>
      if respOk status then
        match body with
        | .error msg => fallbackLoad env path msg
        | .ok data => .displayed (data.files.getD [])
      else fallbackLoad env path ("HTTP error! status: " ++ toString status))

/-- The listing-API fetch did not produce a usable JSON body: the fetch
rejected, the status was not ok, or the body failed to parse. -/
def apiFailed : FetchApi → Prop
  | .fetchError _ => True
  | .response status body =>
    respOk status = false ∨ ∃ m, body = Except.error m

/-- JavaScript `s || d` for strings: `d` when `s` is empty. -/
def jsOrDefault (s d : String) : String := if s = "" then d else s

/-- Model of `.replace(/\/$/, "")`: remove one trailing slash. -/
def stripTrailingSlashL (l : List Char) : List Char :=
  if l.getLast? = some '/' then l.dropLast else l

/-- The base path computed by `window.onload` (src/tools.py lines 288-295)
and passed to `loadDirectory`: the root when the URL path is
"/index.html" or ends with "/index.html", otherwise the URL path with a
first "/index.html" occurrence removed, one trailing slash stripped, and
"/" when nothing remains. -/
def basePathOf (urlPath : String) : String :=
  if urlPath = "/index.html" ∨ endsWithL "/index.html".data urlPath.data then "/"
  else
    jsOrDefault
      (String.mk (stripTrailingSlashL (replaceFirstL "/index.html".data [] urlPath.data)))
      "/"

/-- Remove a suffix from a character list when present. -/
def stripSuffixL (suffix l : List Char) : List Char :=
  if endsWithL suffix l then l.take (l.length - suffix.length) else l

/-- Modelled from the claim wording for the implicit-index case: the base
path is the URL path with the "/index.html" suffix and any trailing slash
removed, or "/" when nothing remains. -/
def basePathClaimIndex (urlPath : String) : String :=
  jsOrDefault
    (String.mk (stripTrailingSlashL (stripSuffixL "/index.html".data urlPath.data)))
    "/"

/-- Collapse runs of slashes, modelling `.replace(/\/+/g, "/")`; the flag
records whether the previously emitted character was a slash. -/
def collapseSlashes : List Char → Bool → List Char
  | [], _ => []
  | c :: rest, prevSlash =>
    if c = '/' then
      (if prevSlash then collapseSlashes rest true
       else '/' :: collapseSlashes rest true)
    else c :: collapseSlashes rest false

/-- No two adjacent slashes occur in the list. -/
def noDoubleSlash : List Char → Bool
  | [] => true
  | [_] => true
  | a :: b :: rest => !(a = '/' && b = '/') && noDoubleSlash (b :: rest)

/-- Model of the path normalization in `navigateTo` (src/tools.py lines
462-470): prefix a slash when missing, then collapse every run of slashes;
the result is what `navigateTo` passes to `loadDirectory`. -/
def navigateToPath (p : String) : String :=
  let p1 := if "/".data.isPrefixOf p.data then p.data else '/' :: p.data
  String.mk (collapseSlashes p1 false)

/-- Model of `filterFiles` (src/tools.py lines 502-513): the list it
passes to `displayFiles`, given the search box value.  The lower-cased
term being empty means the box is empty; otherwise entries whose
lower-cased name contains the term are kept. -/
def filterFilesList (boxValue : String) (allFiles : List FileEntry) : List FileEntry :=
  let searchTerm := toLowerStr boxValue
  if searchTerm = "" then allFiles
  else allFiles.filter (fun f => containsL searchTerm.data (toLowerStr f.name).data)

end Explorer

namespace PathSandbox

/-- Numeric value of a hexadecimal digit character, 16 when not one. -/
def hexVal (c : Char) : Nat :=
  if '0' ≤ c ∧ c ≤ '9' then c.toNat - 48
  else if 'a' ≤ c ∧ c ≤ 'f' then c.toNat - 87
  else if 'A' ≤ c ∧ c ≤ 'F' then c.toNat - 70
  else 16

/-- Modelled from the spec: the URL-decoding step of `PathSandbox.resolve`
(spec §4.1, "URL-decode"); the Python implementation of the server is not
under src/ (src contains only the browser UI).  Percent sequences of two
hexadecimal digits become the denoted code point; anything else passes
through. -/
def percentDecode : List Char → List Char
  | '%' :: a :: b :: rest =>
    if hexVal a < 16 ∧ hexVal b < 16 then
      Char.ofNat (16 * hexVal a + hexVal b) :: percentDecode rest
    else '%' :: percentDecode (a :: b :: rest)
  | c :: rest => c :: percentDecode rest
  | [] => []

/-- Modelled from the spec: the query-string and fragment stripping step of
`PathSandbox.resolve` (spec §4.1). -/
def stripQueryFragment (l : List Char) : List Char :=
  l.takeWhile (fun c => c ≠ '?' ∧ c ≠ '#')

/-- Modelled from the spec: `PathSandbox.resolve(root, requestPath)`
(spec §4.1), on paths represented as segment lists.  Strip query string
and fragment; URL-decode; split into segments; ignore every segment equal
to "", "." or ".." rather than applying it; join the remainder onto the
root one segment at a time; finally verify the result is the root or a
descendant of it (the segment-list form of the separator-aware prefix
check), returning rejection otherwise. -/
def resolve (root : List String) (requestPath : String) : Option (List String) :=
  let decoded := percentDecode (stripQueryFragment requestPath.data)
  let segs := (Explorer.splitOnChar '/' decoded).filter
    (fun s => s ≠ [] ∧ s ≠ ['.'] ∧ s ≠ ['.', '.'])
  let joined := root ++ segs.map String.mk
  if root.isPrefixOf joined then some joined else none

end PathSandbox

namespace Explorer

theorem lexLe_total : ∀ a b : List Char, lexLe a b = true ∨ lexLe b a = true := by
  intro a
  induction a with
  | nil => intro b; left; rfl
  | cons x xs ih =>
    intro b
    cases b with
    | nil => right; rfl
    | cons y ys =>
      by_cases hxy : x < y
      · left; simp [lexLe, hxy]
      · by_cases hyx : y < x
        · right; simp [lexLe, hyx]
        · have hx : x = y := le_antisymm (not_lt.mp hyx) (not_lt.mp hxy)
          subst hx
          rcases ih ys with h | h
          · left; simp [lexLe, h]
          · right; simp [lexLe, h]

theorem lexLe_trans : ∀ a b c : List Char,
    lexLe a b = true → lexLe b c = true → lexLe a c = true := by
  intro a
  induction a with
  | nil => intro b c _ _; rfl
  | cons x xs ih =>
    intro b c hab hbc
    cases b with
    | nil => simp [lexLe] at hab
    | cons y ys =>
      cases c with
      | nil => simp [lexLe] at hbc
      | cons z zs =>
        simp only [lexLe] at hab hbc ⊢
        by_cases hxy : x < y
        · -- x < y; from hbc, y ≤ z, so x < z
          by_cases hyz : y < z
          · have : x < z := lt_trans hxy hyz
            simp [this]
          · by_cases hzy : z < y
            · simp [hyz, hzy] at hbc
            · have : y = z := le_antisymm (not_lt.mp hzy) (not_lt.mp hyz)
              subst this
              simp [hxy]
        · by_cases hyx : y < x
          · simp [hxy, hyx] at hab
          · have hx : x = y := le_antisymm (not_lt.mp hyx) (not_lt.mp hxy)
            subst hx
            simp only [lt_irrefl, if_false, if_neg (lt_irrefl x)] at hab
            by_cases hyz : x < z
            · simp [hyz]
            · by_cases hzy : z < x
              · simp [hyz, hzy] at hbc
              · have : x = z := le_antisymm (not_lt.mp hzy) (not_lt.mp hyz)
                subst this
                simp only [lt_irrefl, if_false, if_neg (lt_irrefl x)] at hbc ⊢
                exact ih _ _ hab hbc

theorem localeCompare_nonpos_iff (a b : String) :
    localeCompare a b ≤ 0 ↔ lexLe (lowerL a.data) (lowerL b.data) = true := by
  unfold localeCompare
  split
  · rename_i h
    constructor
    · intro _; exact h
    · intro _; split <;> norm_num
  · rename_i h
    constructor
    · intro hc; norm_num at hc
    · intro hc; exact absurd hc h

theorem sortLe_iff (a b : FileEntry) :
    sortLe a b = true ↔
      (a.type = "directory" ∧ b.type ≠ "directory") ∨
      ((a.type = "directory" ↔ b.type = "directory") ∧
        lexLe (lowerL a.name.data) (lowerL b.name.data) = true) := by
  unfold sortLe sortCompare
  by_cases ha : a.type = "directory" <;> by_cases hb : b.type = "directory" <;>
    simp [ha, hb, localeCompare_nonpos_iff]

theorem sortLe_trans (a b c : FileEntry)
    (hab : sortLe a b = true) (hbc : sortLe b c = true) : sortLe a c = true := by
  rw [sortLe_iff] at hab hbc ⊢
  rcases hab with ⟨ha, hb⟩ | ⟨hiff1, hL1⟩
  · rcases hbc with ⟨hb2, _⟩ | ⟨hiff2, _⟩
    · exact absurd hb2 hb
    · exact Or.inl ⟨ha, fun hc => hb (hiff2.mpr hc)⟩
  · rcases hbc with ⟨hb2, hc⟩ | ⟨hiff2, hL2⟩
    · exact Or.inl ⟨hiff1.mpr hb2, hc⟩
    · exact Or.inr ⟨hiff1.trans hiff2, lexLe_trans _ _ _ hL1 hL2⟩

theorem sortLe_total (a b : FileEntry) : sortLe a b || sortLe b a := by
  rcases lexLe_total (lowerL a.name.data) (lowerL b.name.data) with h | h
  · by_cases ha : a.type = "directory" <;> by_cases hb : b.type = "directory"
    · simp [sortLe_iff, ha, hb, h]
    · simp [sortLe_iff, ha, hb]
    · simp [sortLe_iff, ha, hb]
    · simp [sortLe_iff, ha, hb, h]
  · by_cases ha : a.type = "directory" <;> by_cases hb : b.type = "directory"
    · simp [sortLe_iff, ha, hb, h]
    · simp [sortLe_iff, ha, hb]
    · simp [sortLe_iff, ha, hb]
    · simp [sortLe_iff, ha, hb, h]

theorem entityOk_cons_of_ne (c : Char) (rest : List Char) (hc : c ≠ '&') :
    entityOk (c :: rest) = entityOk rest := by
  rw [entityOk.eq_def]
  simp [hc]

theorem entityOk_escapeChar_append (c : Char) (rest : List Char)
    (h : entityOk rest = true) : entityOk (escapeChar c ++ rest) = true := by
  unfold escapeChar
  split_ifs with h1 h2 h3 h4
  · simpa [entityOk] using h
  · simpa [entityOk] using h
  · simpa [entityOk] using h
  · simpa [entityOk] using h
  · rw [List.singleton_append, entityOk_cons_of_ne c rest h1]
    exact h

theorem entityOk_escapeHtmlL (l : List Char) : entityOk (escapeHtmlL l) = true := by
  induction l with
  | nil => rfl
  | cons c rest ih => exact entityOk_escapeChar_append c _ ih

theorem angle_not_mem_escapeChar (c : Char) :
    '<' ∉ escapeChar c ∧ '>' ∉ escapeChar c := by
  unfold escapeChar
  split_ifs with h1 h2 h3 h4
  · decide
  · decide
  · decide
  · decide
  · exact ⟨fun hm => h2 (List.mem_singleton.mp hm).symm,
      fun hm => h3 (List.mem_singleton.mp hm).symm⟩

theorem angle_not_mem_escapeHtmlL (l : List Char) :
    '<' ∉ escapeHtmlL l ∧ '>' ∉ escapeHtmlL l := by
  induction l with
  | nil => exact ⟨by simp [escapeHtmlL], by simp [escapeHtmlL]⟩
  | cons c rest ih =>
    simp only [escapeHtmlL, List.mem_append]
    constructor
    · rintro (h | h)
      · exact (angle_not_mem_escapeChar c).1 h
      · exact ih.1 h
    · rintro (h | h)
      · exact (angle_not_mem_escapeChar c).2 h
      · exact ih.2 h

theorem mem_replaceFirstL (pat rep : List Char) : ∀ (l : List Char) (c : Char),
    c ∈ replaceFirstL pat rep l → c ∈ rep ∨ c ∈ l := by
  intro l
  induction l with
  | nil =>
    intro c h
    unfold replaceFirstL at h
    split at h
    · exact Or.inl h
    · simp at h
  | cons x rest ih =>
    intro c h
    unfold replaceFirstL at h
    split at h
    · rcases List.mem_append.mp h with h1 | h2
      · exact Or.inl h1
      · exact Or.inr ((List.drop_sublist _ _).mem h2)
    · rcases List.mem_cons.mp h with h1 | h2
      · exact Or.inr (h1 ▸ List.mem_cons_self x rest)
      · rcases ih c h2 with h3 | h3
        · exact Or.inl h3
        · exact Or.inr (List.mem_cons_of_mem x h3)

theorem fallbackLoad_page_ok (env : BrowserEnv) (path errMsg : String)
    (anchors : List Anchor) (hp : env.page = Except.ok anchors) :
    fallbackLoad env path errMsg =
      Outcome.displayedFallback (parseDirectoryListing anchors path) := by
  simp [fallbackLoad, hp]

theorem fallbackLoad_page_error (env : BrowserEnv) (path errMsg m : String)
    (hp : env.page = Except.error m) :
    fallbackLoad env path errMsg =
      Outcome.errorShown ("Failed to load directory: " ++ errMsg) := by
  simp [fallbackLoad, hp]

theorem loadDirectory_snd_fallback (env : BrowserEnv) (path : String)
    (hfail : apiFailed env.api) :
    ∃ errMsg, (loadDirectory env path).2 = fallbackLoad env path errMsg := by
  cases ha : env.api with
  | fetchError msg => exact ⟨msg, by simp [loadDirectory, ha]⟩
  | response status body =>
    rw [ha] at hfail
    unfold apiFailed at hfail
    by_cases hok : respOk status = true
    · rcases hfail with hbad | ⟨m, hm⟩
      · rw [hok] at hbad; cases hbad
      · exact ⟨m, by simp [loadDirectory, ha, hok, hm]⟩
    · have hok2 := Bool.eq_false_iff.mpr hok
      exact ⟨"HTTP error! status: " ++ toString status,
        by simp [loadDirectory, ha, hok2]⟩

theorem noDoubleSlash_cons (a : Char) (l : List Char) (h1 : noDoubleSlash l = true)
    (h2 : ∀ d, l.head? = some d → a = '/' → d ≠ '/') :
    noDoubleSlash (a :: l) = true := by
  cases l with
  | nil => rfl
  | cons d l2 =>
    have hd := h2 d rfl
    simp [noDoubleSlash, h1]
    rcases Classical.em (a = '/') with ha | ha
    · exact Or.inr (hd ha)
    · exact Or.inl ha

theorem noDoubleSlash_cons_inv (a : Char) (l : List Char)
    (h : noDoubleSlash (a :: l) = true) :
    noDoubleSlash l = true ∧ ∀ d, l.head? = some d → a = '/' → d ≠ '/' := by
  cases l with
  | nil => exact ⟨rfl, by intro d hd ha; cases hd⟩
  | cons d l2 =>
    simp [noDoubleSlash] at h
    refine ⟨h.2, ?_⟩
    intro d2 hd2 ha
    have hdd : d = d2 := by simpa using hd2
    subst hdd
    rcases h.1 with h3 | h3
    · exact absurd ha h3
    · exact h3

theorem collapseSlashes_true_head (xs : List Char) :
    (collapseSlashes xs true).head? ≠ some '/' := by
  induction xs with
  | nil => simp [collapseSlashes]
  | cons c rest ih =>
    by_cases hc : c = '/'
    · simpa [collapseSlashes, hc] using ih
    · simp [collapseSlashes, hc]

theorem noDoubleSlash_collapseSlashes : ∀ (xs : List Char) (b : Bool),
    noDoubleSlash (collapseSlashes xs b) = true := by
  intro xs
  induction xs with
  | nil => intro b; rfl
  | cons c rest ih =>
    intro b
    by_cases hc : c = '/'
    · cases b with
      | true => simpa [collapseSlashes, hc] using ih true
      | false =>
        have hh := collapseSlashes_true_head rest
        have hgoal : collapseSlashes (c :: rest) false =
            '/' :: collapseSlashes rest true := by
          simp [collapseSlashes, hc]
        rw [hgoal]
        refine noDoubleSlash_cons '/' _ (ih true) ?_
        intro d hd _ hdd
        rw [hdd] at hd
        exact hh hd
    · have hgoal : collapseSlashes (c :: rest) b = c :: collapseSlashes rest false := by
        simp [collapseSlashes, hc]
      rw [hgoal]
      exact noDoubleSlash_cons c _ (ih false) (fun d hd ha => absurd ha hc)

theorem collapseSlashes_fixed : ∀ (xs : List Char), noDoubleSlash xs = true →
    collapseSlashes xs false = xs ∧
      (xs.head? ≠ some '/' → collapseSlashes xs true = xs) := by
  intro xs
  induction xs with
  | nil => intro h; exact ⟨rfl, fun _ => rfl⟩
  | cons c rest ih =>
    intro h
    obtain ⟨h1, h2⟩ := noDoubleSlash_cons_inv c rest h
    have ihr := ih h1
    by_cases hc : c = '/'
    · subst hc
      constructor
      · have hrest : rest.head? ≠ some '/' := by
          intro hd
          exact (h2 '/' hd rfl) rfl
        have hstep : collapseSlashes ('/' :: rest) false =
            '/' :: collapseSlashes rest true := by
          simp [collapseSlashes]
        rw [hstep, ihr.2 hrest]
      · intro hhead
        exact absurd rfl hhead
    · constructor
      · have hstep : collapseSlashes (c :: rest) false =
            c :: collapseSlashes rest false := by
          simp [collapseSlashes, hc]
        rw [hstep, ihr.1]
      · intro _
        have hstep : collapseSlashes (c :: rest) true =
            c :: collapseSlashes rest false := by
          simp [collapseSlashes, hc]
        rw [hstep, ihr.1]

theorem slash_prefix_shape (l : List Char) :
    "/".data.isPrefixOf l = true → ∃ t, l = '/' :: t := by
  cases l with
  | nil => intro h; simp [List.isPrefixOf] at h
  | cons c t =>
    intro h
    simp [List.isPrefixOf] at h
    exact ⟨t, by rw [h]⟩

theorem navigateToPath_of_normalized (q : String)
    (hpre : "/".data.isPrefixOf q.data = true)
    (hnds : noDoubleSlash q.data = true) : navigateToPath q = q := by
  unfold navigateToPath
  dsimp only
  rw [if_pos hpre, (collapseSlashes_fixed q.data hnds).1]

end Explorer

/-- C1: for every root and every request path, including paths with `..`
segments, encoded or not, `PathSandbox.resolve` only ever returns the root
or a descendant of the root (here: a segment list extending the root). -/
theorem c1_resolve_confined (root : List String) (p : String) (r : List String)
    (h : PathSandbox.resolve root p = some r) : root <+: r := by
  unfold PathSandbox.resolve at h
  dsimp only at h
  split at h
  · injection h with h2
    exact h2 ▸ List.prefix_append root _
  · exact absurd h (by simp)

/-- Witness for C1 at a concrete traversal attempt mixing plain and
percent-encoded `..` segments. -/
theorem c1_witness : ["srv"] <+: ["srv", "etc", "passwd"] :=
  c1_resolve_confined ["srv"] "/../%2e%2e/etc/passwd?q=1#f" ["srv", "etc", "passwd"]
    (by decide)

/-- C3: `loadDirectory` requests exactly
`/api/list?path=<encodeURIComponent path>` and, on a 200 response whose
body parses, displays the JSON object's `files` array. -/
theorem c3_api_list_request (env : Explorer.BrowserEnv) (path : String)
    (data : Explorer.ListJson)
    (h : env.api = Explorer.FetchApi.response 200 (Except.ok data)) :
    Explorer.loadDirectory env path =
      ("/api/list?path=" ++ Explorer.encodeURIComponent path,
        Explorer.Outcome.displayed (data.files.getD [])) := by
  unfold Explorer.loadDirectory
  rw [h]
  simp [Explorer.respOk, Explorer.apiListUrl]

/-- Witness for C3 at a concrete 200 response with an empty file list. -/
theorem c3_witness :
    Explorer.loadDirectory
      ⟨Explorer.FetchApi.response 200 (Except.ok ⟨some [], some "/"⟩),
        Except.error "x"⟩ "/a b" =
      ("/api/list?path=%2Fa%20b", Explorer.Outcome.displayed []) := by
  have h := c3_api_list_request
    ⟨Explorer.FetchApi.response 200 (Except.ok ⟨some [], some "/"⟩),
      Except.error "x"⟩ "/a b" ⟨some [], some "/"⟩ rfl
  rw [h]
  decide

/-- C4: the entry name embedded in the item markup of `displayFiles` is
the `escapeHtml` form of the name, and that form contains no raw `<`, `>`
or `&`: angle brackets never occur, and every ampersand begins an entity
sequence. -/
theorem c4_name_escaped_in_item (f : Explorer.FileEntry) (formattedSize : String) :
    (∃ pre post, Explorer.itemInnerHTML f formattedSize =
      pre ++ Explorer.escapeHtml f.name ++ post) ∧
    '<' ∉ (Explorer.escapeHtml f.name).data ∧
    '>' ∉ (Explorer.escapeHtml f.name).data ∧
    Explorer.entityOk (Explorer.escapeHtml f.name).data = true := by
  refine ⟨⟨" <div class=\"file-icon\">" ++
      (if f.type = "directory" then "📁" else Explorer.getFileIcon f.name) ++ "</div> " ++
      "<div class=\"file-info\" onclick=\"" ++ Explorer.infoOnclick f ++ "\"> " ++
      "<div class=\"file-name\">",
    "</div> " ++
      "<div class=\"file-details\"> <span>Type: " ++ f.type ++ "</span> " ++
      "<span>Size: " ++ Explorer.sizeDisplay f formattedSize ++ "</span> " ++
      "<span>Modified: " ++ Explorer.modifiedDisplay f ++ "</span> </div> </div> " ++
      "<div class=\"file-actions\"> " ++ Explorer.actionsHtml f ++ " </div>", ?_⟩,
    ?_, ?_, ?_⟩
  · simp only [Explorer.itemInnerHTML, String.append_assoc]
  · exact (Explorer.angle_not_mem_escapeHtmlL f.name.data).1
  · exact (Explorer.angle_not_mem_escapeHtmlL f.name.data).2
  · exact Explorer.entityOk_escapeHtmlL f.name.data

/-- Counterexample for C6: for the URL path `/docs/index.html` the code
computes base path `/`, while the claim's rule (strip the `/index.html`
suffix and any trailing slash, defaulting to `/`) gives `/docs`. -/
theorem c6_counterexample :
    Explorer.basePathOf "/docs/index.html" = "/" ∧
    Explorer.basePathClaimIndex "/docs/index.html" = "/docs" ∧
    Explorer.basePathOf "/docs/index.html" ≠
      Explorer.basePathClaimIndex "/docs/index.html" := by
  decide

/-- C6 as amended: when the URL path is `/index.html` or ends in
`/index.html`, the initial base path is always the served root `/`,
regardless of the containing directory. -/
theorem c6_amended_root_base (u : String)
    (h : u = "/index.html" ∨ Explorer.endsWithL "/index.html".data u.data = true) :
    Explorer.basePathOf u = "/" := by
  unfold Explorer.basePathOf
  split
  · rfl
  · rename_i hn
    exact absurd h hn

/-- Witness for the amended C6 at a nested index page. -/
theorem c6_witness : Explorer.basePathOf "/docs/index.html" = "/" :=
  c6_amended_root_base "/docs/index.html" (Or.inr (by decide))

/-- C7: no entry produced by the fallback parser comes from a link whose
trimmed text starts with `Parent Directory` or with `..`. -/
theorem c7_parent_links_excluded (path : String) (link : Explorer.Anchor)
    (e : Explorer.FileEntry) (h : Explorer.linkEntry path link = some e) :
    "Parent Directory".data.isPrefixOf (Explorer.trimL link.text.data) = false ∧
    "..".data.isPrefixOf (Explorer.trimL link.text.data) = false := by
  cases hh : link.href with
  | none => simp [Explorer.linkEntry, hh] at h
  | some href =>
    simp only [Explorer.linkEntry, hh] at h
    split at h
    · rename_i hguard
      obtain ⟨-, -, h3, h4⟩ := hguard
      exact ⟨Bool.eq_false_iff.mpr h3, Bool.eq_false_iff.mpr h4⟩
    · exact absurd h (by simp)

/-- Witness for C7 at a concrete ordinary link. -/
theorem c7_witness :
    "Parent Directory".data.isPrefixOf (Explorer.trimL ("a" : String).data) = false ∧
    "..".data.isPrefixOf (Explorer.trimL ("a" : String).data) = false :=
  c7_parent_links_excluded "/" ⟨some "a", "a"⟩
    ⟨"a", "/a", "file", none, none⟩ (by decide)

/-- C2: in the order `displayFiles` renders entries, every entry of kind
directory precedes every entry that is not a directory, and any two
entries of the same kind appear in case-insensitive lexicographic
ascending order of name. -/
theorem c2_displayFiles_sorted (files : List Explorer.FileEntry) :
    (Explorer.displayOrder files).Pairwise (fun a b =>
      (b.type = "directory" → a.type = "directory") ∧
      ((a.type = "directory" ↔ b.type = "directory") →
        Explorer.lexLe (Explorer.lowerL a.name.data) (Explorer.lowerL b.name.data) = true)) := by
  have hs := @List.sorted_mergeSort Explorer.FileEntry Explorer.sortLe
    (fun a b c hab hbc => Explorer.sortLe_trans a b c hab hbc)
    (fun a b => Explorer.sortLe_total a b) files
  refine hs.imp ?_
  intro a b hab
  rw [Explorer.sortLe_iff] at hab
  rcases hab with ⟨ha, hb⟩ | ⟨hiff, hL⟩
  · exact ⟨fun hbd => absurd hbd hb, fun hif => absurd (hif.mp ha) hb⟩
  · exact ⟨fun hbd => hiff.mpr hbd, fun _ => hL⟩

/-- C5: an entry produced by the fallback parser is classified as a
directory exactly when its href or its trimmed link text ends with a
slash, and the constructed entry path is built with forward slashes only:
it contains a backslash only if the directory path or the href already
did. -/
theorem c5_parser_entry_shape (path : String) (link : Explorer.Anchor)
    (href : String) (e : Explorer.FileEntry) (hh : link.href = some href)
    (h : Explorer.linkEntry path link = some e) :
    (e.type = "directory" ↔
      (Explorer.endsWithL "/".data href.data = true ∨
       Explorer.endsWithL "/".data (Explorer.trimL link.text.data) = true)) ∧
    ('\\' ∉ path.data → '\\' ∉ href.data → '\\' ∉ e.path.data) := by
  simp only [Explorer.linkEntry, hh] at h
  split at h
  · injection h with he
    subst he
    constructor
    · dsimp only
      split
      · rename_i hd
        simp only [true_iff]
        exact hd
      · rename_i hd
        constructor
        · intro hfd
          exact absurd hfd (by decide)
        · intro hor
          exact absurd hor hd
    · intro hp hh2 hmem
      dsimp only at hmem
      rcases Explorer.mem_replaceFirstL _ _ _ _ hmem with hr | hl
      · simp at hr
      · rcases Classical.em (path = "/") with hpath | hpath
        · rw [if_pos hpath] at hl
          rcases Classical.em ("/".data.isPrefixOf href.data = true) with hpre | hpre
          · rw [if_pos hpre] at hl
            exact hh2 hl
          · rw [if_neg hpre] at hl
            rcases List.mem_append.mp hl with h1 | h1
            · simp at h1
            · exact hh2 h1
        · rw [if_neg hpath] at hl
          rcases Classical.em (Explorer.endsWithL "/".data path.data = true) with hsl | hsl
          · rw [if_pos hsl] at hl
            rcases List.mem_append.mp hl with h1 | h1
            · exact hp h1
            · exact hh2 h1
          · rw [if_neg hsl] at hl
            rcases List.mem_append.mp hl with h1 | h1
            · rcases List.mem_append.mp h1 with h2 | h2
              · exact hp h2
              · simp at h2
            · exact hh2 h1
  · exact absurd h (by simp)

/-- Witness for C5 at a concrete directory link inside a subdirectory. -/
theorem c5_witness :
    ((Explorer.FileEntry.mk "sub" "/a/sub/" "directory" none none).type = "directory" ↔
      (Explorer.endsWithL "/".data ("sub/" : String).data = true ∨
       Explorer.endsWithL "/".data (Explorer.trimL ("sub/" : String).data) = true)) ∧
    ('\\' ∉ ("/a" : String).data → '\\' ∉ ("sub/" : String).data →
      '\\' ∉ (Explorer.FileEntry.mk "sub" "/a/sub/" "directory" none none).path.data) :=
  c5_parser_entry_shape "/a" ⟨some "sub/", "sub/"⟩ "sub/"
    ⟨"sub", "/a/sub/", "directory", none, none⟩ rfl (by decide)

/-- C8: whenever the listing-API request fails (rejected fetch, non-ok
status, or unparsable body), `loadDirectory` falls back to fetching the
path itself and parsing its HTML into a listing; an error is shown if and
only if this fallback fetch also fails. -/
theorem c8_fallback_on_api_failure (env : Explorer.BrowserEnv) (path : String)
    (hfail : Explorer.apiFailed env.api) :
    (∀ anchors, env.page = Except.ok anchors →
      (Explorer.loadDirectory env path).2 =
        Explorer.Outcome.displayedFallback (Explorer.parseDirectoryListing anchors path)) ∧
    (∀ m, env.page = Except.error m →
      ∃ msg, (Explorer.loadDirectory env path).2 = Explorer.Outcome.errorShown msg) ∧
    (∀ msg, (Explorer.loadDirectory env path).2 = Explorer.Outcome.errorShown msg →
      ∃ m, env.page = Except.error m) := by
  obtain ⟨errMsg, he⟩ := Explorer.loadDirectory_snd_fallback env path hfail
  refine ⟨?_, ?_, ?_⟩
  · intro anchors hp
    rw [he]
    exact Explorer.fallbackLoad_page_ok env path errMsg anchors hp
  · intro m hp
    exact ⟨"Failed to load directory: " ++ errMsg,
      by rw [he]; exact Explorer.fallbackLoad_page_error env path errMsg m hp⟩
  · intro msg hmsg
    cases hp : env.page with
    | ok anchors =>
      rw [he, Explorer.fallbackLoad_page_ok env path errMsg anchors hp] at hmsg
      exact absurd hmsg (by simp)
    | error m => exact ⟨m, rfl⟩

/-- Witness for C8: a rejected API fetch together with a failing fallback
fetch ends in the error box. -/
theorem c8_witness : ∃ msg,
    (Explorer.loadDirectory
      ⟨Explorer.FetchApi.fetchError "boom", Except.error "nope"⟩ "/").2 =
      Explorer.Outcome.errorShown msg :=
  (c8_fallback_on_api_failure
    ⟨Explorer.FetchApi.fetchError "boom", Except.error "nope"⟩ "/"
    True.intro).2.1 "nope" rfl

/-- C9: the path `navigateTo` hands to `loadDirectory` always starts with
a slash and contains no two adjacent slashes, and the normalization is
idempotent. -/
theorem c9_navigateTo_normalized (p : String) :
    (Explorer.navigateToPath p).data.head? = some '/' ∧
    Explorer.noDoubleSlash (Explorer.navigateToPath p).data = true ∧
    Explorer.navigateToPath (Explorer.navigateToPath p) = Explorer.navigateToPath p := by
  obtain ⟨t, ht⟩ : ∃ t,
      (if "/".data.isPrefixOf p.data then p.data else '/' :: p.data) = '/' :: t := by
    rcases Classical.em ("/".data.isPrefixOf p.data = true) with hp | hp
    · obtain ⟨t, ht⟩ := Explorer.slash_prefix_shape p.data hp
      exact ⟨t, by rw [if_pos hp, ht]⟩
    · exact ⟨p.data, by rw [if_neg hp]⟩
  have hdata : (Explorer.navigateToPath p).data =
      Explorer.collapseSlashes ('/' :: t) false := by
    unfold Explorer.navigateToPath
    dsimp only
    rw [ht]
  have hcoll : Explorer.collapseSlashes ('/' :: t) false =
      '/' :: Explorer.collapseSlashes t true := by
    simp [Explorer.collapseSlashes]
  have hnds : Explorer.noDoubleSlash (Explorer.navigateToPath p).data = true := by
    rw [hdata]
    exact Explorer.noDoubleSlash_collapseSlashes _ _
  refine ⟨?_, hnds, ?_⟩
  · rw [hdata, hcoll]
    rfl
  · have hpre : "/".data.isPrefixOf (Explorer.navigateToPath p).data = true := by
      rw [hdata, hcoll]
      simp [List.isPrefixOf]
    exact Explorer.navigateToPath_of_normalized _ hpre hnds

/-- C10: with an empty search box `filterFiles` passes `allFiles` itself
to the display, and with a non-empty box it passes exactly the entries
whose lower-cased name contains the lower-cased term, a sublist of
`allFiles` in the original relative order. -/
theorem c10_filterFiles (boxValue : String) (files : List Explorer.FileEntry) :
    (boxValue = "" → Explorer.filterFilesList boxValue files = files) ∧
    (boxValue ≠ "" →
      Explorer.filterFilesList boxValue files =
        files.filter (fun f =>
          Explorer.containsL (Explorer.toLowerStr boxValue).data
            (Explorer.toLowerStr f.name).data) ∧
      (files.filter (fun f =>
          Explorer.containsL (Explorer.toLowerStr boxValue).data
            (Explorer.toLowerStr f.name).data)).Sublist files) := by
  constructor
  · intro h
    subst h
    rfl
  · intro h
    have hne : Explorer.toLowerStr boxValue ≠ "" := by
      intro he
      apply h
      have hmap : Explorer.lowerL boxValue.data = [] := by
        have hc := congrArg String.data he
        simpa [Explorer.toLowerStr] using hc
      have hdata : boxValue.data = [] := by
        simpa [Explorer.lowerL] using hmap
      cases boxValue with
      | mk l =>
        simp only at hdata
        rw [hdata]
    constructor
    · unfold Explorer.filterFilesList
      dsimp only
      rw [if_neg hne]
    · exact List.filter_sublist _

/-- Witness for C10: a capital-letter search term matching one entry
case-insensitively. -/
theorem c10_witness :
    Explorer.filterFilesList "A"
      [⟨"abc", "/abc", "file", none, none⟩, ⟨"xyz", "/xyz", "file", none, none⟩] =
      [⟨"abc", "/abc", "file", none, none⟩] := by
  have h := ((c10_filterFiles "A"
    [⟨"abc", "/abc", "file", none, none⟩, ⟨"xyz", "/xyz", "file", none, none⟩]).2
    (by decide)).1
  rw [h]
  decide
